import Mathlib

/-!
Verification of the MaxkorotZI peer-to-peer encrypted chat application
(`src/app.js`) against its natural-language specification.

The development shallowly embeds the application's pure data flow:
bytes are `List Nat` (values `< 256`), base64 is implemented concretely
(mirroring `btoa`/`atob`), the secp256k1 library boundary is translated
from the formulas the library computes, the WebCrypto AEAD/HKDF boundary
is modelled from the spec as ideal deterministic primitives, and the
application's mutable module state (`connections`, `signalSeen`,
outbound signals, statuses) becomes an explicit `AppState` record
transformed by pure functions translated statement-by-statement from
`app.js`.
-/

namespace MaxkorotZI

/-! ### Base64 (`toB64` / `fromB64`, src/app.js lines 41-49)

`toB64` is `btoa(String.fromCharCode(...bytes))`: standard base64 with
`=` padding, defined on byte lists.  `fromB64` is
`Uint8Array.from(atob(str), c => c.charCodeAt(0))`: the HTML
forgiving-base64 decode (trailing `=` stripped when the length is a
multiple of 4, length `≡ 1 [MOD 4]` rejected, leftover bits discarded),
modelled without `atob`'s ASCII-whitespace stripping, which no claim
exercises. -/

/-- JS whitespace as `String.prototype.trim` strips it (the ASCII part;
no claim exercises the exotic Unicode space classes). -/
def isJsSpace (c : Char) : Bool :=
  c = ' ' ∨ c = '\t' ∨ c = '\n' ∨ c = '\r' ∨ c = '\x0b' ∨ c = '\x0c'

/-- `value.trim()` from JS, implemented over the character list so that
concrete instances reduce in the kernel. -/
def jsTrim (s : String) : String :=
  ⟨((s.data.dropWhile isJsSpace).reverse.dropWhile isJsSpace).reverse⟩

def b64Chars : List Char :=
  "ABCDEFGHIJKLMNOPQRSTUVWXYZabcdefghijklmnopqrstuvwxyz0123456789+/".data

/-- The base64 character for a sextet value. -/
def sextetChar (n : Nat) : Char := b64Chars.getD n 'A'

/-- The sextet value of a base64 character, `none` when the character is
not in the alphabet. -/
def charSextet (c : Char) : Option Nat := b64Chars.indexOf? c

/-- One full 3-byte chunk encoded as 4 sextet characters. -/
def encode3 (a b c : Nat) : List Char :=
  [sextetChar (a / 4), sextetChar ((a % 4) * 16 + b / 16),
   sextetChar ((b % 16) * 4 + c / 64), sextetChar (c % 64)]

/-- Base64-encode a byte list to characters, `=`-padding the final
partial chunk as `btoa` does. -/
def toB64Chars : List Nat → List Char
  | [] => []
  | [a] => [sextetChar (a / 4), sextetChar ((a % 4) * 16), '=', '=']
  | [a, b] =>
      [sextetChar (a / 4), sextetChar ((a % 4) * 16 + b / 16),
       sextetChar ((b % 16) * 4), '=']
  | a :: b :: c :: rest => encode3 a b c ++ toB64Chars rest

/-- `toB64(bytes)` from src/app.js: `btoa(String.fromCharCode(...bytes))`. -/
def toB64 (bytes : List Nat) : String := ⟨toB64Chars bytes⟩

/-- Remove trailing base64 padding (up to two `=`) when the input length
is a multiple of 4, as the forgiving-base64 decode does. -/
def stripTrailingPad (cs : List Char) : List Char :=
  if cs.length % 4 = 0 then
    if cs.reverse.take 2 = ['=', '='] then cs.dropLast.dropLast
    else if cs.reverse.take 1 = ['='] then cs.dropLast
    else cs
  else cs

/-- Map every character to its sextet value; fails on a character outside
the base64 alphabet. -/
def charsToSextets : List Char → Option (List Nat)
  | [] => some []
  | c :: cs =>
      match charSextet c, charsToSextets cs with
      | some s, some ss => some (s :: ss)
      | _, _ => none

/-- Reassemble bytes from sextets: groups of 4 sextets give 3 bytes, a
final group of 2 or 3 sextets gives 1 or 2 bytes (leftover bits
discarded), a dangling single sextet is an error. -/
def sextetsToBytes : List Nat → Option (List Nat)
  | [] => some []
  | [_] => none
  | [x, y] => some [x * 4 + y / 16]
  | [x, y, z] => some [x * 4 + y / 16, (y % 16) * 16 + z / 4]
  | x :: y :: z :: w :: rest =>
      (sextetsToBytes rest).map
        (fun bs => (x * 4 + y / 16) :: ((y % 16) * 16 + z / 4) :: ((z % 4) * 64 + w) :: bs)

/-- Forgiving-base64 decode on character lists. -/
def fromB64Chars (cs : List Char) : Option (List Nat) :=
  let core := stripTrailingPad cs
  if core.length % 4 = 1 then none
  else (charsToSextets core).bind sextetsToBytes

/-- `fromB64(str)` from src/app.js:
`Uint8Array.from(atob(str), c => c.charCodeAt(0))`; `none` models the
`InvalidCharacterError` thrown by `atob`. -/
def fromB64 (s : String) : Option (List Nat) := fromB64Chars s.data

/-- `shortId(bytes)` from src/app.js:
`toB64(bytes.slice(0, 6)).replace(/=+/g, '')`. -/
def shortId (bytes : List Nat) : String :=
  ⟨(toB64Chars (bytes.take 6)).filter (· ≠ '=')⟩

/-- The base64 encoding of a byte list with the trailing padding already
removed; auxiliary yardstick for the `fromB64 ∘ toB64` round trip. -/
def toB64CharsCore : List Nat → List Char
  | [] => []
  | [a] => [sextetChar (a / 4), sextetChar ((a % 4) * 16)]
  | [a, b] =>
      [sextetChar (a / 4), sextetChar ((a % 4) * 16 + b / 16),
       sextetChar ((b % 16) * 4)]
  | a :: b :: c :: rest => encode3 a b c ++ toB64CharsCore rest

/-! ### secp256k1 point arithmetic (the `@noble/secp256k1` collaborator)

Modelled from the spec: the application consumes `secp.getPublicKey`,
`secp.getSharedSecret` and the library's compressed/uncompressed point
parsing as opaque cryptographic capabilities (§6).  The definitions
below translate the formulas that library computes — short Weierstrass
curve `y² = x³ + 7` over the prime field of `secpP`, affine addition,
binary double-and-add scalar multiplication (fuel-bounded so that it
stays kernel-reducible), SEC1 point encoding/decoding with an existence
check for the square root when decompressing. -/

def secpP : Nat :=
  0xFFFFFFFFFFFFFFFFFFFFFFFFFFFFFFFFFFFFFFFFFFFFFFFFFFFFFFFEFFFFFC2F

def secpN : Nat :=
  0xFFFFFFFFFFFFFFFFFFFFFFFFFFFFFFFEBAAEDCE6AF48A03BBFD25E8CD0364141

def secpGx : Nat :=
  0x79BE667EF9DCBBAC55A06295CE870B07029BFCDB2DCE28D959F2815B16F81798

def secpGy : Nat :=
  0x483ADA7726A3C4655DA4FBFC0E1108A8FD17B448A68554199C47D08FFB10D4B8

/-- The secp256k1 base point. -/
def secpG : Nat × Nat := (secpGx, secpGy)

/-- Modular exponentiation by squaring, structurally recursive on a fuel
bound so that concrete instances reduce in the kernel. -/
def powModAux (m : Nat) : Nat → Nat → Nat → Nat → Nat
  | 0, _, _, acc => acc
  | fuel + 1, b, e, acc =>
      if e = 0 then acc
      else powModAux m fuel (b * b % m) (e / 2)
        (if e % 2 = 1 then acc * b % m else acc)

/-- `b ^ e % m` for exponents below `2 ^ 257`. -/
def powMod (m b e : Nat) : Nat := powModAux m 257 (b % m) e (1 % m)

def fadd (a b : Nat) : Nat := (a + b) % secpP

def fsub (a b : Nat) : Nat := (a + secpP - b % secpP) % secpP

def fmul (a b : Nat) : Nat := a * b % secpP

/-- Field inverse by Fermat's little theorem. -/
def finv (a : Nat) : Nat := powMod secpP a (secpP - 2)

/-- Affine point doubling; `none` is the point at infinity. -/
def pdouble : Nat × Nat → Option (Nat × Nat)
  | (x, y) =>
      if y = 0 then none
      else
        let lam := fmul (fmul 3 (fmul x x)) (finv (fmul 2 y))
        let x3 := fsub (fmul lam lam) (fadd x x)
        some (x3, fsub (fmul lam (fsub x x3)) y)

/-- Affine addition of two finite points. -/
def paddPts : Nat × Nat → Nat × Nat → Option (Nat × Nat)
  | (x1, y1), (x2, y2) =>
      if x1 = x2 then
        if (y1 + y2) % secpP = 0 then none else pdouble (x1, y1)
      else
        let lam := fmul (fsub y2 y1) (finv (fsub x2 x1))
        let x3 := fsub (fmul lam lam) (fadd x1 x2)
        some (x3, fsub (fmul lam (fsub x1 x3)) y1)

/-- Curve group operation with the point at infinity as identity. -/
def padd : Option (Nat × Nat) → Option (Nat × Nat) → Option (Nat × Nat)
  | none, q => q
  | some p, none => some p
  | some p, some q => paddPts p q

/-- Binary double-and-add scalar multiplication (fuel-bounded). -/
def pmulAux : Nat → Nat → Option (Nat × Nat) → Option (Nat × Nat) →
    Option (Nat × Nat)
  | 0, _, _, acc => acc
  | fuel + 1, k, base, acc =>
      if k = 0 then acc
      else pmulAux fuel (k / 2) (padd base base)
        (if k % 2 = 1 then padd acc base else acc)

/-- `k • P` on secp256k1 for scalars below `2 ^ 257`. -/
def pmul (k : Nat) (p : Option (Nat × Nat)) : Option (Nat × Nat) :=
  pmulAux 257 k p none

/-- Big-endian byte list to natural number. -/
def bytesToNat (bs : List Nat) : Nat := bs.foldl (fun acc b => acc * 256 + b) 0

/-- Fixed-width big-endian bytes of a natural number. -/
def natToBytesBE : Nat → Nat → List Nat
  | 0, _ => []
  | w + 1, n => natToBytesBE w (n / 256) ++ [n % 256]

/-- Candidate square root modulo `secpP` (which is `≡ 3 [MOD 4]`). -/
def sqrtCand (c : Nat) : Nat := powMod secpP c ((secpP + 1) / 4)

/-- SEC1 point decoding as `Point.fromHex` performs it: a 33-byte
compressed encoding (prefix 2 or 3, x-coordinate, y recovered by a
square root that must exist) or a 65-byte uncompressed encoding (prefix
4, both coordinates, checked against the curve equation); everything
else — in particular every wrong length and every x with no point on
the curve — is rejected. -/
def parsePoint (bs : List Nat) : Option (Nat × Nat) :=
  if bs.length = 33 ∧ (bs.headD 0 = 2 ∨ bs.headD 0 = 3) then
    let x := bytesToNat (bs.drop 1)
    if x = 0 ∨ secpP ≤ x then none
    else
      let c := (x * x % secpP * x + 7) % secpP
      let y0 := sqrtCand c
      if y0 * y0 % secpP ≠ c then none
      else some (x, if y0 % 2 = bs.headD 0 % 2 then y0 else (secpP - y0) % secpP)
  else if bs.length = 65 ∧ bs.headD 0 = 4 then
    let x := bytesToNat ((bs.drop 1).take 32)
    let y := bytesToNat (bs.drop 33)
    if secpP ≤ x ∨ secpP ≤ y then none
    else if y * y % secpP = (x * x % secpP * x + 7) % secpP then some (x, y)
    else none
  else none

/-- SEC1 compressed encoding of a finite point: one parity prefix byte
followed by 32 big-endian x-coordinate bytes. -/
def compressPoint (p : Nat × Nat) : List Nat :=
  (if p.2 % 2 = 0 then 2 else 3) :: natToBytesBE 32 p.1

/-! ### Session key derivation (`deriveAesKey`, src/app.js lines 81-104) -/

/-- Modelled from the spec: the HKDF-SHA256 key-derivation capability
(`crypto.subtle.importKey` + `deriveKey`, §6) is deterministic and
injective in its inputs, so its output is represented by the inputs
themselves: the 32-byte shared secret, the caller's salt, and the fixed
application info string. -/
structure AesKey where
  secret : List Nat
  salt : String
  info : String
deriving DecidableEq

/-- Failure of the key-agreement boundary (`KeyAgreementError` in the
spec's taxonomy): the `@noble/secp256k1` calls throw on a malformed peer
public key or an out-of-range private scalar. -/
inductive KeyAgreementError
  | invalidPeerKey
  | invalidPrivateKey
deriving DecidableEq

/-- `deriveAesKey(peerPubB64, saltText)` from src/app.js: decode the
peer public key from base64, compute the compressed shared point
`secp.getSharedSecret(myKeyPair.priv, peerPub, true)`, drop its prefix
byte (`shared.slice(1)`), and derive the AES key by HKDF with the salt
and the fixed info string `maxkorotzi-e2ee`. -/
def deriveAesKey (myPriv : Nat) (peerPubB64 : String) (saltText : String) :
    Except KeyAgreementError AesKey :=
  match fromB64 peerPubB64 with
  | none => .error .invalidPeerKey
  | some pubBytes =>
      match parsePoint pubBytes with
      | none => .error .invalidPeerKey
      | some p =>
          if myPriv = 0 ∨ secpN ≤ myPriv then .error .invalidPrivateKey
          else
            let shared :=
              match pmul myPriv (some p) with
              | none => []
              | some q => compressPoint q
            .ok ⟨shared.drop 1, saltText, "maxkorotzi-e2ee"⟩

/-! ### Message codec (`encryptMessage` / `decryptMessage`,
src/app.js lines 106-121) -/

/-- Modelled from the spec: the AES-GCM AEAD capability (§4.3, §6) is
ideal — the opaque ciphertext blob is determined by key, nonce and
plaintext, and authentication binds all three perfectly. -/
structure AeadBlob where
  key : AesKey
  iv : List Nat
  plain : List Nat
deriving DecidableEq

/-- Modelled from the spec: `crypto.subtle.encrypt({name: AES-GCM, iv},
key, plain)` as an ideal AEAD. -/
def aesGcmEncrypt (key : AesKey) (iv : List Nat) (plain : List Nat) : AeadBlob :=
  ⟨key, iv, plain⟩

/-- Modelled from the spec: `crypto.subtle.decrypt` as an ideal AEAD:
succeeds exactly when both the key and the nonce match the ones the blob
was sealed under, otherwise the authentication tag fails. -/
def aesGcmDecrypt (key : AesKey) (iv : List Nat) (blob : AeadBlob) :
    Option (List Nat) :=
  if blob.key = key ∧ blob.iv = iv then some blob.plain else none

/-- Modelled from the spec: `TextEncoder.encode`, an injective text to
byte-sequence encoding. -/
def strToBytes (s : String) : List Nat := s.data.map Char.toNat

/-- Modelled from the spec: `TextDecoder.decode`, the partial inverse of
`strToBytes`. -/
def bytesToStr (bs : List Nat) : Option String :=
  if bs.all (fun b => decide (Nat.isValidChar b)) then
    some ⟨bs.map Char.ofNat⟩
  else none

/-- The `{iv, data}` payload returned by `encryptMessage`: the fresh
nonce base64-encoded, and the AEAD ciphertext blob (whose base64
transport encoding is part of the opaque boundary). -/
structure EncPayload where
  iv : String
  data : AeadBlob
deriving DecidableEq

/-- `encryptMessage(aesKey, text)` from src/app.js; the 12 random bytes
drawn by `crypto.getRandomValues(new Uint8Array(12))` are passed in as
the explicit entropy `ivDraw` of this call. -/
def encryptMessage (aesKey : AesKey) (ivDraw : List Nat) (text : String) :
    EncPayload :=
  ⟨toB64 ivDraw, aesGcmEncrypt aesKey ivDraw (strToBytes text)⟩

/-- `decryptMessage(aesKey, payload)` from src/app.js; `none` models the
exception thrown on base64 or authentication failure. -/
def decryptMessage (aesKey : AesKey) (payload : EncPayload) : Option String :=
  match fromB64 payload.iv with
  | none => none
  | some iv => (aesGcmDecrypt aesKey iv payload.data).bind bytesToStr

/-! ### Identity store (`importSeed` and friends,
src/app.js lines 55-79 and 263-293) -/

/-- Failure of `secp.getPublicKey`: the 32-byte seed, read as a
big-endian scalar, must lie in `[1, n-1]`. -/
inductive PubKeyError
  | invalidScalar
deriving DecidableEq

/-- `secp.getPublicKey(priv, true)`: the compressed encoding of
`priv • G`, after validating the scalar. -/
def getPublicKey (privBytes : List Nat) : Except PubKeyError (List Nat) :=
  let d := bytesToNat privBytes
  if d = 0 ∨ secpN ≤ d then .error .invalidScalar
  else
    match pmul d (some secpG) with
    | none => .error .invalidScalar
    | some q => .ok (compressPoint q)

/-- The persisted (`localStorage`) and in-memory identity of the local
party: `maxkorotzi_priv` / `maxkorotzi_pub` storage keys, and the
module-level `myKeyPair`, `myPubB64`, `myId`. -/
structure IdentityState where
  storagePriv : Option String
  storagePub : Option String
  myKeyPair : Option (List Nat × List Nat)
  myPubB64 : String
  myId : String
deriving DecidableEq

/-- `setIdentity(pair)` from src/app.js (DOM mirroring elided). -/
def setIdentity (st : IdentityState) (pair : List Nat × List Nat) :
    IdentityState :=
  { st with
    myKeyPair := some pair,
    myPubB64 := toB64 pair.2,
    myId := shortId pair.2 }

/-- Outcome of `importSeed`: empty input is silently ignored; any
thrown error is caught and surfaced as the `InvalidFormat` alert. -/
inductive ImportResult
  | ignored
  | invalidFormat
  | imported
deriving DecidableEq

/-- `importSeed()` from src/app.js lines 269-283: trim the input, decode
it from base64, require exactly 32 bytes, derive the public key, and
only then persist both keys and replace the active identity; every
failure is caught before any mutation. -/
def importSeed (st : IdentityState) (inputText : String) :
    IdentityState × ImportResult :=
  let seed := jsTrim inputText
  if seed = "" then (st, .ignored)
  else
    match fromB64 seed with
    | none => (st, .invalidFormat)
    | some priv =>
        if priv.length ≠ 32 then (st, .invalidFormat)
        else
          match getPublicKey priv with
          | .error _ => (st, .invalidFormat)
          | .ok pub =>
              (setIdentity
                { st with
                  storagePriv := some (toB64 priv),
                  storagePub := some (toB64 pub) } (priv, pub), .imported)

/-! ### Signaling and the per-peer connection state
(src/app.js lines 31-36, 135-261)

The module-level mutable state of `app.js` (`room`, `connections`,
`signalSeen`, plus the externally observable effects: signals written to
the broadcast medium, status line, rendered messages, channel sends)
becomes the explicit record `AppState`.  `handledLog` is ghost
instrumentation: it records the dedup key each time the subscription
callback actually invokes `handleSignal`. -/

/-- A signaling event as `handleSignal` consumes it.  Absent JS fields
(`data.pub`, `data.sdp`, `data.candidate` may be `undefined`) are the
empty string, matching the `data.pub || ''` and truthiness tests in the
source.  The `ts` stamp added by `sendSignal` is external clock data no
code path reads and is not modelled. -/
structure SignalData where
  type : String
  «from» : String
  pub : String
  sdp : String
  candidate : String
deriving DecidableEq

/-- The observable state of an `RTCPeerConnection` as far as app.js
drives it: the descriptions that were set and the remote ICE candidates
that were added.  Offer/answer session descriptions themselves are
opaque transport data (§6). -/
structure Peer where
  remoteDesc : Option (String × String)
  localDesc : Option (String × String)
  iceCandidates : List String
deriving DecidableEq

def initPeer : Peer := ⟨none, none, []⟩

/-- Modelled from the spec: `createOffer()` yields an opaque session
description. -/
def createOfferSdp (_p : Peer) : String := "sdp-offer"

/-- Modelled from the spec: `createAnswer()` yields an opaque session
description. -/
def createAnswerSdp (_p : Peer) : String := "sdp-answer"

def setRemoteDescription (p : Peer) (d : String × String) : Peer :=
  { p with remoteDesc := some d }

def setLocalDescription (p : Peer) (d : String × String) : Peer :=
  { p with localDesc := some d }

def addIceCandidate (p : Peer) (c : String) : Peer :=
  { p with iceCandidates := p.iceCandidates ++ [c] }

/-- The object returned by `createConnection` and stored in the
`connections` map: `{ peerId, peer, channel, aesKey }`.  `channelOpen`
is the data channel's `readyState === 'open'`, driven by the transport
collaborator. -/
structure Connection where
  peerId : String
  peer : Peer
  channelOpen : Bool
  aesKey : Option AesKey
deriving DecidableEq

/-- `Map.prototype.get` on the insertion-ordered `connections` map. -/
def mlookup (m : List (String × Connection)) (k : String) : Option Connection :=
  match m with
  | [] => none
  | (k', v) :: rest => if k' = k then some v else mlookup rest k

/-- `Map.prototype.set`: an existing key keeps its insertion position, a
new key is appended. -/
def mapSet (m : List (String × Connection)) (k : String) (v : Connection) :
    List (String × Connection) :=
  match m with
  | [] => [(k, v)]
  | (k', v') :: rest =>
      if k' = k then (k', v) :: rest else (k', v') :: mapSet rest k v

structure AppState where
  room : Option String
  connections : List (String × Connection)
  signalSeen : List String
  outSignals : List (String × SignalData)
  status : String
  messages : List (String × String)
  sent : List (String × EncPayload)
  handledLog : List String
deriving DecidableEq

/-- The identity and DOM inputs `handleSignal`, `createConnection` and
`startConnection` read: `myId`, `myPubB64`, `myKeyPair.priv` (as a
scalar), and the current text of the room-id input field. -/
structure Env where
  myId : String
  myPubB64 : String
  myPriv : Nat
  roomInput : String
deriving DecidableEq

/-- `createConnection(peerId, peerPubB64)` from src/app.js lines
192-231: the room salt is `elements.roomId.value.trim() || 'maxkorotzi'`;
the session key is derived exactly when a peer public key string was
supplied, and a derivation failure propagates (the `RTCPeerConnection`
already constructed is simply dropped). -/
def createConnection (env : Env) (peerId : String) (peerPubB64 : String) :
    Except KeyAgreementError Connection :=
  let roomSalt := if jsTrim env.roomInput = "" then "maxkorotzi" else jsTrim env.roomInput
  if peerPubB64 ≠ "" then
    match deriveAesKey env.myPriv peerPubB64 roomSalt with
    | .error e => .error e
    | .ok k => .ok ⟨peerId, initPeer, false, some k⟩
  else .ok ⟨peerId, initPeer, false, none⟩

/-- `sendSignal(targetId, payload)` from src/app.js lines 183-190:
no-op without a room, otherwise append the payload stamped with the
sender id to the target's mailbox. -/
def sendSignal (room : Option String) (myId : String)
    (out : List (String × SignalData)) (targetId : String)
    (payload : SignalData) : List (String × SignalData) :=
  match room with
  | none => out
  | some _ => out ++ [(targetId, { payload with «from» := myId })]

def updateConn (st : AppState) (k : String) (c : Connection) : AppState :=
  { st with connections := mapSet st.connections k c }

/-- The offer/answer/ice dispatch of `handleSignal` once `conn` is in
hand (src/app.js lines 163-180). -/
def handleSignalWith (env : Env) (st : AppState) (fromId : String)
    (conn : Connection) (data : SignalData) : AppState :=
  if data.type = "offer" then
    let peer1 := setRemoteDescription conn.peer ("offer", data.sdp)
    let answerSdp := createAnswerSdp peer1
    let peer2 := setLocalDescription peer1 ("answer", answerSdp)
    let st1 := updateConn st fromId { conn with peer := peer2 }
    let out := sendSignal st1.room env.myId st1.outSignals fromId
      ⟨"answer", "", env.myPubB64, answerSdp, ""⟩
    { st1 with outSignals := out, status := "Ответ отправлен → " ++ fromId }
  else if data.type = "answer" then
    let st1 := updateConn st fromId
      { conn with peer := setRemoteDescription conn.peer ("answer", data.sdp) }
    { st1 with status := "Соединение установлено с " ++ fromId }
  else if data.type = "ice" then
    if data.candidate ≠ "" then
      updateConn st fromId
        { conn with peer := addIceCandidate conn.peer data.candidate }
    else st
  else st

/-- `handleSignal(data)` from src/app.js lines 155-181: drop events with
a falsy or self `from`; get the sender's session or create one from the
event's `pub` field (`data.pub || ''`), recording it in `connections`;
a failed creation rejects the promise and leaves the state as it was;
then dispatch on the event type. -/
def handleSignal (env : Env) (st : AppState) (data : SignalData) : AppState :=
  let fromId := data.«from»
  if fromId = "" ∨ fromId = env.myId then st
  else
    match mlookup st.connections fromId with
    | some conn => handleSignalWith env st fromId conn data
    | none =>
        match createConnection env fromId data.pub with
        | .error _ => st
        | .ok conn => handleSignalWith env (updateConn st fromId conn) fromId conn data

inductive StartResult
  | noRoom
  | missingFields
  | keyAgreementFailed
  | offerSent
deriving DecidableEq

/-- `startConnection()` from src/app.js lines 233-247: requires a room
and both input fields; creates and records the session, sets the local
offer description, and publishes the offer with the local public key.
A key-agreement failure rejects before the session is recorded. -/
def startConnection (env : Env) (st : AppState)
    (peerIdInput peerPubInput : String) : AppState × StartResult :=
  match st.room with
  | none => (st, .noRoom)
  | some _ =>
      let peerId := jsTrim peerIdInput
      let peerPubB64 := jsTrim peerPubInput
      if peerId = "" ∨ peerPubB64 = "" then (st, .missingFields)
      else
        match createConnection env peerId peerPubB64 with
        | .error _ => (st, .keyAgreementFailed)
        | .ok conn =>
            let st1 := updateConn st peerId conn
            let offerSdp := createOfferSdp conn.peer
            let conn2 := { conn with peer := setLocalDescription conn.peer ("offer", offerSdp) }
            let st2 := updateConn st1 peerId conn2
            let out := sendSignal st2.room env.myId st2.outSignals peerId
              ⟨"offer", "", env.myPubB64, offerSdp, ""⟩
            ({ st2 with
               outSignals := out,
               status := "Оффер отправлен → " ++ peerId }, .offerSent)

inductive SendResult
  | emptyInput
  | noActiveChannel
  | sent (target : String)
deriving DecidableEq

/-- `sendMessage()` from src/app.js lines 249-261: take the first
session (in insertion order) whose channel is open; if there is none or
it has no session key, alert `Нет активного канала`; otherwise encrypt
with the fresh entropy `ivDraw` and send exactly one payload on that
channel. -/
def sendMessage (st : AppState) (inputText : String) (ivDraw : List Nat) :
    AppState × SendResult :=
  let text := jsTrim inputText
  if text = "" then (st, .emptyInput)
  else
    match st.connections.find? (fun kc => kc.2.channelOpen) with
    | none => (st, .noActiveChannel)
    | some kc =>
        match kc.2.aesKey with
        | none => (st, .noActiveChannel)
        | some key =>
            let payload := encryptMessage key ivDraw text
            ({ st with
               sent := st.sent ++ [(kc.1, payload)],
               messages := st.messages ++ [("Вы", text)] }, .sent kc.1)

/-- `resetSignals()` from src/app.js lines 135-137. -/
def resetSignals (st : AppState) : AppState := { st with signalSeen := [] }

/-- `listenSignals()` from src/app.js lines 145-153: no-op without a
room, otherwise clear the dedup set and (re-)arm the subscription. -/
def listenSignals (st : AppState) : AppState :=
  match st.room with
  | none => st
  | some _ => resetSignals st

/-- The join-room click handler from src/app.js lines 301-310: a blank
room id is rejected, otherwise the room is set, the subscription is
re-armed, and the status updated. -/
def joinRoom (env : Env) (st : AppState) : AppState :=
  let roomId := jsTrim env.roomInput
  if roomId = "" then st
  else
    let st1 := listenSignals { st with room := some roomId }
    { st1 with status := "В комнате " ++ roomId }

/-- One delivery from the broadcast medium to the subscription callback
of `listenSignals` (src/app.js lines 148-152): null or type-less data is
dropped, an already seen dedup key is dropped, otherwise the key is
marked seen and `handleSignal` invoked (and the invocation recorded in
the ghost `handledLog`). -/
def processDelivery (env : Env) (st : AppState) (key : String)
    (data : Option SignalData) : AppState :=
  match data with
  | none => st
  | some d =>
      if d.type = "" ∨ key ∈ st.signalSeen then st
      else handleSignal env
        { st with
          signalSeen := key :: st.signalSeen,
          handledLog := st.handledLog ++ [key] } d

/-- A sequence of mailbox deliveries, in delivery order. -/
def runDeliveries (env : Env) (st : AppState)
    (evs : List (String × Option SignalData)) : AppState :=
  evs.foldl (fun s ev => processDelivery env s ev.1 ev.2) st

/-- `channel.onopen` (src/app.js lines 215-217): the transport
collaborator reports the data channel open. -/
def channelOpened (st : AppState) (peerId : String) : AppState :=
  match mlookup st.connections peerId with
  | none => st
  | some c =>
      { updateConn st peerId { c with channelOpen := true } with
        status := "P2P канал открыт с " ++ peerId }

/-- `channel.onmessage` (src/app.js lines 218-226): an inbound payload
is shown as an unreadable placeholder when no session key is available,
otherwise decrypted and rendered; a decryption failure rejects the
handler's promise and renders nothing. -/
def channelMessage (st : AppState) (peerId : String) (payload : EncPayload) :
    AppState :=
  match mlookup st.connections peerId with
  | none => st
  | some c =>
      match c.aesKey with
      | none =>
          { st with messages :=
              st.messages ++ [(peerId, "[получено сообщение, но ключ не готов]")] }
      | some k =>
          match decryptMessage k payload with
          | none => st
          | some text => { st with messages := st.messages ++ [(peerId, text)] }

/-! ### Abstract key-agreement model (for the static-static symmetry)

Modelled from the spec: §4.2 and §6 consume the key agreement as an
opaque capability — scalar multiplication in the curve's commutative
point group — with `derive(A, pub(B), s) == derive(B, pub(A), s)` as
the stated symmetry requirement.  The definitions below state the whole
`deriveAesKey` pipeline over an arbitrary commutative point group `G`
(of which the secp256k1 group is an instance), with the SEC1 compression
an arbitrary encoding function. -/

/-- `secp.getSharedSecret(priv, pub)`: scalar multiplication of the peer
public point by the local private scalar. -/
def getSharedSecretModel {G : Type} [AddCommMonoid G] (priv : Nat) (pub : G) : G :=
  priv • pub

/-- `secp.getPublicKey(priv)`: scalar multiplication of the base point. -/
def getPublicKeyModel {G : Type} [AddCommMonoid G] (gen : G) (priv : Nat) : G :=
  priv • gen

/-- The `deriveAesKey` pipeline over the abstract point group: encode
the shared point, drop the prefix byte (`shared.slice(1)`), and feed the
result through HKDF with the salt and fixed info string. -/
def deriveAesKeyModel {G : Type} [AddCommMonoid G] (encodePt : G → List Nat)
    (priv : Nat) (peerPub : G) (saltText : String) : AesKey :=
  ⟨(encodePt (getSharedSecretModel priv peerPub)).drop 1, saltText,
   "maxkorotzi-e2ee"⟩

/-! ### Concrete fixtures (test vectors for witnesses and
counterexamples) -/

def envA : Env := ⟨"me", "mypub", 1, ""⟩

def stEmpty : AppState := ⟨none, [], [], [], "", [], [], []⟩

/-- An ice event from a sender with no session; ice events published by
`createConnection`'s `onicecandidate` handler carry no `pub` field. -/
def iceFromUnknown : SignalData := ⟨"ice", "peer", "", "", "cand1"⟩

def keyA : AesKey := ⟨[1], "s", "maxkorotzi-e2ee"⟩

def keyB : AesKey := ⟨[2], "s", "maxkorotzi-e2ee"⟩

/-- A session whose channel is open but whose key never arrived. -/
def connOpenNoKey : Connection := ⟨"p1", initPeer, true, none⟩

/-- A session whose channel is open and whose key is set. -/
def connOpenKeyed : Connection := ⟨"p2", initPeer, true, some keyA⟩

/-- Two open-channel sessions: the first (in insertion order) has no
session key, the second has one. -/
def stTwoOpen : AppState :=
  ⟨some "r", [("p1", connOpenNoKey), ("p2", connOpenKeyed)], [], [], "", [], [], []⟩

def idStA : IdentityState := ⟨some "sp", some "sq", some ([1], [2]), "pb", "id"⟩

def ivA : List Nat := [0, 1, 2, 3, 4, 5, 6, 7, 8, 9, 10, 11]

def ivB : List Nat := [9, 1, 2, 3, 4, 5, 6, 7, 8, 9, 10, 11]

/-- A syntactically valid base64 string that decodes to 2 bytes — a
malformed public key (wrong length, hence no point parses). -/
def badPubB64 : String := toB64 [2, 0]

end MaxkorotZI

namespace MaxkorotZI

/-! ### Base64 round trip -/

theorem charSextet_sextetChar (s : Nat) (h : s < 64) :
    charSextet (sextetChar s) = some s := by
  interval_cases s <;> rfl

theorem sextetChar_ne_pad (s : Nat) : sextetChar s ≠ '=' := by
  rcases lt_or_ge s 64 with h | h
  · interval_cases s <;> decide
  · unfold sextetChar
    rw [List.getD_eq_default]
    · decide
    · exact le_trans (by decide) h

theorem charsToSextets_append (l1 l2 : List Char) :
    charsToSextets (l1 ++ l2) =
      (charsToSextets l1).bind fun s1 => (charsToSextets l2).map (s1 ++ ·) := by
  induction l1 with
  | nil =>
      simp only [List.nil_append, charsToSextets, Option.bind_some]
      cases charsToSextets l2 <;> rfl
  | cons c cs ih =>
      show charsToSextets (c :: (cs ++ l2)) = _
      rcases hc : charSextet c with _ | s
      · simp only [charsToSextets, hc]
        cases charsToSextets (cs ++ l2) <;> rfl
      · simp only [charsToSextets, hc, ih]
        cases charsToSextets cs <;> cases charsToSextets l2 <;> rfl

theorem toB64Chars_length_mod (bs : List Nat) :
    (toB64Chars bs).length % 4 = 0 := by
  induction bs using toB64Chars.induct with
  | case1 => rfl
  | case2 a => simp [toB64Chars]
  | case3 a b => simp [toB64Chars]
  | case4 a b c rest ih =>
      simp only [toB64Chars, encode3, List.length_append, List.length_cons,
        List.length_nil]
      omega

theorem toB64CharsCore_length_mod (bs : List Nat) :
    (toB64CharsCore bs).length % 4 ≠ 1 := by
  induction bs using toB64CharsCore.induct with
  | case1 => decide
  | case2 a => simp [toB64CharsCore]
  | case3 a b => simp [toB64CharsCore]
  | case4 a b c rest ih =>
      simp only [toB64CharsCore, encode3, List.length_append, List.length_cons,
        List.length_nil]
      omega

theorem stripTrailingPad_append4 (x1 x2 x3 x4 : Char) (E : List Char)
    (hE : E.length % 4 = 0) (h4 : x4 ≠ '=') :
    stripTrailingPad ([x1, x2, x3, x4] ++ E) =
      [x1, x2, x3, x4] ++ stripTrailingPad E := by
  rcases eq_or_ne E [] with rfl | hne
  · simp [stripTrailingPad, h4]
  · have hlen0 : E.length ≠ 0 := by
      simpa [List.length_eq_zero] using hne
    have hge : 4 ≤ E.length := by omega
    have hrev2 : ([x1, x2, x3, x4] ++ E).reverse.take 2 = E.reverse.take 2 := by
      rw [List.reverse_append, List.take_append_of_le_length (by simp; omega)]
    have hrev1 : ([x1, x2, x3, x4] ++ E).reverse.take 1 = E.reverse.take 1 := by
      rw [List.reverse_append, List.take_append_of_le_length (by simp; omega)]
    have hdl : ([x1, x2, x3, x4] ++ E).dropLast = [x1, x2, x3, x4] ++ E.dropLast :=
      List.dropLast_append_of_ne_nil _ hne
    have hdlne : E.dropLast ≠ [] := by
      have : E.dropLast.length = E.length - 1 := List.length_dropLast E
      intro hc
      rw [hc] at this
      simp at this
      omega
    have hdl2 : ([x1, x2, x3, x4] ++ E).dropLast.dropLast
        = [x1, x2, x3, x4] ++ E.dropLast.dropLast := by
      rw [hdl]
      exact List.dropLast_append_of_ne_nil _ hdlne
    have hlmod : ([x1, x2, x3, x4] ++ E).length % 4 = 0 := by
      simp only [List.length_append, List.length_cons, List.length_nil]
      omega
    unfold stripTrailingPad
    rw [hlmod, hE, if_pos rfl, if_pos rfl, hrev2, hrev1, hdl2, hdl]
    by_cases h2 : E.reverse.take 2 = ['=', '=']
    · rw [if_pos h2, if_pos h2]
    · rw [if_neg h2, if_neg h2]
      by_cases h1 : E.reverse.take 1 = ['=']
      · rw [if_pos h1, if_pos h1]
      · rw [if_neg h1, if_neg h1]

theorem strip_toB64Chars (bs : List Nat) :
    stripTrailingPad (toB64Chars bs) = toB64CharsCore bs := by
  induction bs using toB64Chars.induct with
  | case1 => rfl
  | case2 a =>
      simp [toB64Chars, toB64CharsCore, stripTrailingPad]
  | case3 a b =>
      have h3 : sextetChar ((b % 16) * 4) ≠ '=' := sextetChar_ne_pad _
      simp [toB64Chars, toB64CharsCore, stripTrailingPad, h3]
  | case4 a b c rest ih =>
      show stripTrailingPad (encode3 a b c ++ toB64Chars rest) = _
      rw [show encode3 a b c = [sextetChar (a / 4), sextetChar ((a % 4) * 16 + b / 16),
            sextetChar ((b % 16) * 4 + c / 64), sextetChar (c % 64)] from rfl,
          stripTrailingPad_append4 _ _ _ _ _ (toB64Chars_length_mod rest)
            (sextetChar_ne_pad _), ih]
      rfl

theorem decode_encode_core (bs : List Nat) (hb : ∀ b ∈ bs, b < 256) :
    (charsToSextets (toB64CharsCore bs)).bind sextetsToBytes = some bs := by
  induction bs using toB64CharsCore.induct with
  | case1 => rfl
  | case2 a =>
      have ha : a < 256 := hb a (by simp)
      rw [show toB64CharsCore [a] =
            [sextetChar (a / 4), sextetChar ((a % 4) * 16)] from rfl]
      simp only [charsToSextets, charSextet_sextetChar _ (by omega : a / 4 < 64),
        charSextet_sextetChar _ (by omega : (a % 4) * 16 < 64)]
      show some [a / 4 * 4 + (a % 4) * 16 / 16] = some [a]
      congr 2
      omega
  | case3 a b =>
      have ha : a < 256 := hb a (by simp)
      have hbb : b < 256 := hb b (by simp)
      rw [show toB64CharsCore [a, b] =
            [sextetChar (a / 4), sextetChar ((a % 4) * 16 + b / 16),
             sextetChar ((b % 16) * 4)] from rfl]
      simp only [charsToSextets, charSextet_sextetChar _ (by omega : a / 4 < 64),
        charSextet_sextetChar _ (by omega : (a % 4) * 16 + b / 16 < 64),
        charSextet_sextetChar _ (by omega : (b % 16) * 4 < 64)]
      show some [a / 4 * 4 + ((a % 4) * 16 + b / 16) / 16,
        ((a % 4) * 16 + b / 16) % 16 * 16 + (b % 16) * 4 / 4] = some [a, b]
      congr 3 <;> omega
  | case4 a b c rest ih =>
      have ha : a < 256 := hb a (by simp)
      have hbb : b < 256 := hb b (by simp)
      have hc : c < 256 := hb c (by simp)
      have hrest : ∀ x ∈ rest, x < 256 := fun x hx => hb x (by simp [hx])
      have ihr := ih hrest
      rw [show toB64CharsCore (a :: b :: c :: rest)
            = encode3 a b c ++ toB64CharsCore rest from rfl, charsToSextets_append]
      rcases hS : charsToSextets (toB64CharsCore rest) with _ | S
      · rw [hS, Option.none_bind] at ihr
        exact Option.noConfusion ihr
      · rw [hS, Option.some_bind] at ihr
        rw [show charsToSextets (encode3 a b c)
              = some [a / 4, (a % 4) * 16 + b / 16, (b % 16) * 4 + c / 64, c % 64] from by
            simp only [encode3, charsToSextets,
              charSextet_sextetChar _ (by omega : a / 4 < 64),
              charSextet_sextetChar _ (by omega : (a % 4) * 16 + b / 16 < 64),
              charSextet_sextetChar _ (by omega : (b % 16) * 4 + c / 64 < 64),
              charSextet_sextetChar _ (by omega : c % 64 < 64)]]
        simp only [Option.map_some', Option.some_bind, List.cons_append,
          List.nil_append]
        rw [show sextetsToBytes (a / 4 :: ((a % 4) * 16 + b / 16) ::
              ((b % 16) * 4 + c / 64) :: c % 64 :: S)
            = (sextetsToBytes S).map
                (fun bs => (a / 4 * 4 + ((a % 4) * 16 + b / 16) / 16)
                  :: (((a % 4) * 16 + b / 16) % 16 * 16 + ((b % 16) * 4 + c / 64) / 4)
                  :: (((b % 16) * 4 + c / 64) % 4 * 64 + c % 64) :: bs) from rfl,
          ihr]
        simp only [Option.map_some', Option.some.injEq, List.cons.injEq]
        refine ⟨by omega, by omega, by omega, trivial⟩

theorem fromB64_toB64 (bs : List Nat) (hb : ∀ b ∈ bs, b < 256) :
    fromB64 (toB64 bs) = some bs := by
  show fromB64Chars (toB64Chars bs) = some bs
  unfold fromB64Chars
  simp only [strip_toB64Chars]
  rw [if_neg (toB64CharsCore_length_mod bs)]
  exact decode_encode_core bs hb

theorem toB64_injOn (bs1 bs2 : List Nat) (h1 : ∀ b ∈ bs1, b < 256)
    (h2 : ∀ b ∈ bs2, b < 256) (h : toB64 bs1 = toB64 bs2) : bs1 = bs2 := by
  have := fromB64_toB64 bs1 h1
  rw [h, fromB64_toB64 bs2 h2] at this
  exact (Option.some.injEq _ _).mp this.symm

/-! ### Connections-map lemmas -/

theorem mlookup_mapSet_self (m : List (String × Connection)) (k : String)
    (v : Connection) : mlookup (mapSet m k v) k = some v := by
  induction m with
  | nil => simp [mapSet, mlookup]
  | cons kv rest ih =>
      unfold mapSet
      by_cases h : kv.1 = k
      · simp [h, mlookup]
      · simp [h, mlookup, ih]

theorem mlookup_mapSet_ne (m : List (String × Connection)) (k p : String)
    (v : Connection) (h : p ≠ k) : mlookup (mapSet m k v) p = mlookup m p := by
  induction m with
  | nil => simp [mapSet, mlookup, Ne.symm h]
  | cons kv rest ih =>
      unfold mapSet
      by_cases hk : kv.1 = k
      · subst hk
        simp [mlookup, Ne.symm h]
      · simp [hk, mlookup, ih]

theorem mapSet_mapSet (m : List (String × Connection)) (k : String)
    (v w : Connection) : mapSet (mapSet m k v) k w = mapSet m k w := by
  induction m with
  | nil => simp [mapSet]
  | cons kv rest ih =>
      unfold mapSet
      by_cases h : kv.1 = k
      · simp [mapSet, h]
      · simp [mapSet, h, ih]

/-! ### Structural lemmas about `handleSignal` -/

theorem handleSignalWith_connections (env : Env) (st : AppState)
    (fromId : String) (conn : Connection) (d : SignalData) :
    (handleSignalWith env st fromId conn d).connections = st.connections
    ∨ ∃ pr : Peer, (handleSignalWith env st fromId conn d).connections
        = mapSet st.connections fromId { conn with peer := pr } := by
  unfold handleSignalWith updateConn
  by_cases h1 : d.type = "offer"
  · rw [if_pos h1]
    right
    exact ⟨_, rfl⟩
  · rw [if_neg h1]
    by_cases h2 : d.type = "answer"
    · rw [if_pos h2]
      right
      exact ⟨_, rfl⟩
    · rw [if_neg h2]
      by_cases h3 : d.type = "ice"
      · rw [if_pos h3]
        by_cases h4 : d.candidate ≠ ""
        · rw [if_pos h4]
          right
          exact ⟨_, rfl⟩
        · rw [if_neg h4]
          left
          rfl
      · rw [if_neg h3]
        left
        rfl

theorem handleSignalWith_seen_log (env : Env) (st : AppState) (fromId : String)
    (conn : Connection) (d : SignalData) :
    (handleSignalWith env st fromId conn d).signalSeen = st.signalSeen
    ∧ (handleSignalWith env st fromId conn d).handledLog = st.handledLog := by
  unfold handleSignalWith updateConn
  by_cases h1 : d.type = "offer"
  · rw [if_pos h1]
    exact ⟨rfl, rfl⟩
  · rw [if_neg h1]
    by_cases h2 : d.type = "answer"
    · rw [if_pos h2]
      exact ⟨rfl, rfl⟩
    · rw [if_neg h2]
      by_cases h3 : d.type = "ice"
      · rw [if_pos h3]
        by_cases h4 : d.candidate ≠ ""
        · rw [if_pos h4]
          exact ⟨rfl, rfl⟩
        · rw [if_neg h4]
          exact ⟨rfl, rfl⟩
      · rw [if_neg h3]
        exact ⟨rfl, rfl⟩

theorem handleSignal_seen_log (env : Env) (st : AppState) (d : SignalData) :
    (handleSignal env st d).signalSeen = st.signalSeen
    ∧ (handleSignal env st d).handledLog = st.handledLog := by
  unfold handleSignal
  by_cases h0 : d.«from» = "" ∨ d.«from» = env.myId
  · rw [if_pos h0]
    exact ⟨rfl, rfl⟩
  · rw [if_neg h0]
    rcases hm : mlookup st.connections d.«from» with _ | conn
    · rcases hc : createConnection env d.«from» d.pub with e | conn
      · exact ⟨rfl, rfl⟩
      · exact handleSignalWith_seen_log env _ _ conn d
    · exact handleSignalWith_seen_log env st _ conn d

/-! ### The claims -/

/-- C9: an inbound signaling event whose `from` equals the local identifier
is always ignored — `handleSignal` performs no state transition at all:
no session creation, no change to any session, and no outbound signaling. -/
theorem c9_self_event_ignored (env : Env) (st : AppState) (d : SignalData)
    (h : d.«from» = env.myId) : handleSignal env st d = st := by
  simp only [handleSignal]
  rw [if_pos (Or.inr h)]

/-- Witness for C9 at a concrete self-addressed offer event. -/
theorem c9_witness :
    handleSignal envA stEmpty ⟨"offer", "me", "", "x", ""⟩ = stEmpty :=
  c9_self_event_ignored envA stEmpty ⟨"offer", "me", "", "x", ""⟩ rfl

/-- C2 counterexample: an `ice` event from a sender with no existing session,
handled from the empty connections map, changes the connections map — the
code creates a session instead of dropping the candidate. -/
theorem c2_counterexample :
    (handleSignal envA stEmpty iceFromUnknown).connections
      ≠ stEmpty.connections := by
  decide

/-- C2 amended: for every inbound `ice` event whose sender has no existing
session (and which is not self-addressed), the code does not drop the
candidate: it creates a session for the sender — with no session key, since
`ice` events carry no `pub` — adds the candidate to it, and the connections
map gains exactly that entry. -/
theorem c2_ice_unknown_creates_session (env : Env) (st : AppState)
    (d : SignalData) (hty : d.type = "ice") (hfrom : d.«from» ≠ "")
    (hself : d.«from» ≠ env.myId) (hnew : mlookup st.connections d.«from» = none)
    (hpub : d.pub = "") :
    (handleSignal env st d).connections
      = mapSet st.connections d.«from»
          ⟨d.«from», ⟨none, none, if d.candidate = "" then [] else [d.candidate]⟩,
           false, none⟩ := by
  have hcc : createConnection env d.«from» d.pub
      = .ok ⟨d.«from», initPeer, false, none⟩ := by
    rw [hpub]
    rfl
  have hno : d.type ≠ "offer" := by
    rw [hty]
    decide
  have hna : d.type ≠ "answer" := by
    rw [hty]
    decide
  simp only [handleSignal]
  rw [if_neg (by simp [hfrom, hself]), hnew, hcc]
  simp only [handleSignalWith, updateConn]
  rw [if_neg hno, if_neg hna, if_pos hty]
  by_cases hc : d.candidate = ""
  · rw [if_neg (by simp [hc])]
    simp [hc, initPeer]
  · rw [if_pos hc]
    simp [hc, addIceCandidate, initPeer, mapSet_mapSet]

/-- Witness for the amended C2 at a concrete ice event and empty map. -/
theorem c2_witness :
    (handleSignal envA stEmpty iceFromUnknown).connections
      = mapSet stEmpty.connections ("peer")
          ⟨"peer", ⟨none, none, ["cand1"]⟩, false, none⟩ := by
  have h := c2_ice_unknown_creates_session envA stEmpty iceFromUnknown rfl
    (by decide) (by decide) rfl rfl
  simpa using h

/-- C3: an identity import whose input fails base64 decoding, or decodes to
a byte string whose length is not exactly 32, fails with `InvalidFormat` and
leaves the entire previous identity — persisted private and public key and
the in-memory identity — unchanged. -/
theorem c3_import_invalid_format (st : IdentityState) (input : String)
    (hne : jsTrim input ≠ "")
    (hbad : fromB64 (jsTrim input) = none
      ∨ ∃ bs, fromB64 (jsTrim input) = some bs ∧ bs.length ≠ 32) :
    importSeed st input = (st, .invalidFormat) := by
  unfold importSeed
  rcases hbad with h | ⟨bs, h, hlen⟩
  · simp [hne, h]
  · simp [hne, h, hlen]

/-- Witness for C3: an undecodable seed and a decodable seed of the wrong
length both leave a concrete identity unchanged. -/
theorem c3_witness :
    importSeed idStA ("###") = (idStA, .invalidFormat)
    ∧ importSeed idStA (toB64 [1, 2, 3]) = (idStA, .invalidFormat) :=
  ⟨c3_import_invalid_format idStA ("###") (by decide) (Or.inl rfl),
   c3_import_invalid_format idStA (toB64 [1, 2, 3]) (by decide)
     (Or.inr ⟨[1, 2, 3], rfl, by decide⟩)⟩

/-- C6: a malformed peer public key — wrong length, or no point on the curve
parses from it — makes session-key derivation fail with a
`KeyAgreementError`, and both session-creation entry points
(`startConnection` and `handleSignal`) abort without recording a session:
the state, in particular the connections map, is left unchanged. -/
theorem c6_malformed_key_no_session :
    (∀ (priv : Nat) (pub salt : String) (bs : List Nat),
      fromB64 pub = some bs → parsePoint bs = none →
      deriveAesKey priv pub salt = .error .invalidPeerKey)
    ∧ (∀ (env : Env) (st : AppState) (pIn pubIn : String) (e : KeyAgreementError),
      createConnection env (jsTrim pIn) (jsTrim pubIn) = .error e →
      (startConnection env st pIn pubIn).1 = st)
    ∧ (∀ (env : Env) (st : AppState) (d : SignalData) (e : KeyAgreementError),
      mlookup st.connections d.«from» = none →
      createConnection env d.«from» d.pub = .error e →
      handleSignal env st d = st) := by
  refine ⟨?_, ?_, ?_⟩
  · intro priv pub salt bs h1 h2
    unfold deriveAesKey
    simp only [h1, h2]
  · intro env st pIn pubIn e hc
    unfold startConnection
    rcases hr : st.room with _ | r
    · rfl
    · by_cases hf : jsTrim pIn = "" ∨ jsTrim pubIn = ""
      · rw [if_pos hf]
      · rw [if_neg hf, hc]
  · intro env st d e hl hc
    simp only [handleSignal]
    by_cases h0 : d.«from» = "" ∨ d.«from» = env.myId
    · rw [if_pos h0]
    · rw [if_neg h0, hl, hc]

/-- Witness for C6: a 2-byte public key is rejected by all three paths. -/
theorem c6_witness :
    deriveAesKey 1 badPubB64 ("salt") = .error .invalidPeerKey
    ∧ (startConnection ⟨"me", "mypub", 1, "r"⟩ stTwoOpen ("peer") badPubB64).1
        = stTwoOpen
    ∧ handleSignal envA stEmpty ⟨"offer", "peer", badPubB64, "x", ""⟩ = stEmpty :=
  ⟨c6_malformed_key_no_session.1 1 badPubB64 ("salt") [2, 0] rfl rfl,
   c6_malformed_key_no_session.2.1 ⟨"me", "mypub", 1, "r"⟩ stTwoOpen ("peer")
     badPubB64 .invalidPeerKey rfl,
   c6_malformed_key_no_session.2.2 envA stEmpty
     ⟨"offer", "peer", badPubB64, "x", ""⟩ .invalidPeerKey rfl rfl⟩

/-! ### Session keys are fixed at creation (C10) -/

theorem handleSignal_key_stable (env : Env) (st : AppState) (d : SignalData)
    (p : String) (c : Connection) (h : mlookup st.connections p = some c) :
    ∃ c', mlookup (handleSignal env st d).connections p = some c'
      ∧ c'.aesKey = c.aesKey := by
  unfold handleSignal
  by_cases h0 : d.«from» = "" ∨ d.«from» = env.myId
  · rw [if_pos h0]
    exact ⟨c, h, rfl⟩
  · rw [if_neg h0]
    rcases hm : mlookup st.connections d.«from» with _ | conn
    · have hne : p ≠ d.«from» := by
        intro he
        rw [he, hm] at h
        exact Option.noConfusion h
      rcases hc : createConnection env d.«from» d.pub with e | conn
      · exact ⟨c, h, rfl⟩
      · rcases handleSignalWith_connections env (updateConn st d.«from» conn)
            d.«from» conn d with heq | ⟨pr, heq⟩
        · refine ⟨c, ?_, rfl⟩
          rw [heq]
          show mlookup (mapSet st.connections d.«from» conn) p = some c
          rw [mlookup_mapSet_ne _ _ _ _ hne]
          exact h
        · refine ⟨c, ?_, rfl⟩
          rw [heq, mlookup_mapSet_ne _ _ _ _ hne]
          show mlookup (mapSet st.connections d.«from» conn) p = some c
          rw [mlookup_mapSet_ne _ _ _ _ hne]
          exact h
    · rcases handleSignalWith_connections env st d.«from» conn d with heq | ⟨pr, heq⟩
      · refine ⟨c, ?_, rfl⟩
        rw [heq]
        exact h
      · by_cases hp : p = d.«from»
        · subst hp
          rw [hm] at h
          injection h with h
          refine ⟨{ conn with peer := pr }, ?_, ?_⟩
          · rw [heq]
            exact mlookup_mapSet_self _ _ _
          · rw [h]
        · refine ⟨c, ?_, rfl⟩
          rw [heq, mlookup_mapSet_ne _ _ _ _ hp]
          exact h

theorem foldl_handleSignal_key_stable (env : Env) (evs : List SignalData)
    (st : AppState) (p : String) (c : Connection)
    (h : mlookup st.connections p = some c) :
    ∃ c', mlookup (evs.foldl (handleSignal env) st).connections p = some c'
      ∧ c'.aesKey = c.aesKey := by
  induction evs generalizing st c with
  | nil => exact ⟨c, h, rfl⟩
  | cons d rest ih =>
      rcases handleSignal_key_stable env st d p c h with ⟨c1, h1, hk1⟩
      rcases ih (handleSignal env st d) c1 h1 with ⟨c2, h2, hk2⟩
      exact ⟨c2, h2, hk2.trans hk1⟩

theorem handleSignal_new_no_pub_no_key (env : Env) (st : AppState)
    (d : SignalData) (hpub : d.pub = "")
    (hnew : mlookup st.connections d.«from» = none) (c' : Connection)
    (h : mlookup (handleSignal env st d).connections d.«from» = some c') :
    c'.aesKey = none := by
  unfold handleSignal at h
  by_cases h0 : d.«from» = "" ∨ d.«from» = env.myId
  · rw [if_pos h0] at h
    rw [hnew] at h
    exact Option.noConfusion h
  · have hcc : createConnection env d.«from» d.pub
        = .ok ⟨d.«from», initPeer, false, none⟩ := by
      rw [hpub]
      rfl
    rw [if_neg h0] at h
    simp only [hnew, hcc] at h
    rcases handleSignalWith_connections env
        (updateConn st d.«from» ⟨d.«from», initPeer, false, none⟩) d.«from»
        ⟨d.«from», initPeer, false, none⟩ d with heq | ⟨pr, heq⟩
    · rw [heq] at h
      rw [show (updateConn st d.«from» ⟨d.«from», initPeer, false, none⟩).connections
            = mapSet st.connections d.«from» ⟨d.«from», initPeer, false, none⟩
          from rfl, mlookup_mapSet_self] at h
      injection h with h
      rw [← h]
    · rw [heq] at h
      rw [show (updateConn st d.«from» ⟨d.«from», initPeer, false, none⟩).connections
            = mapSet st.connections d.«from» ⟨d.«from», initPeer, false, none⟩
          from rfl, mapSet_mapSet, mlookup_mapSet_self] at h
      injection h with h
      rw [← h]

/-- C10: the session key of a PeerSession is fixed at session creation.
First conjunct: once a session exists for a peer, any sequence of further
signaling events leaves its `aesKey` unchanged (sessions are never
re-derived or updated).  Second conjunct: a session created by a first
event that carries no `pub` field is created with no session key — which,
by the first conjunct, it then keeps forever. -/
theorem c10_session_key_fixed_at_creation :
    (∀ (env : Env) (evs : List SignalData) (st : AppState) (p : String)
      (c : Connection), mlookup st.connections p = some c →
      ∃ c', mlookup (evs.foldl (handleSignal env) st).connections p = some c'
        ∧ c'.aesKey = c.aesKey)
    ∧ (∀ (env : Env) (st : AppState) (d : SignalData) (c' : Connection),
      d.pub = "" → mlookup st.connections d.«from» = none →
      mlookup (handleSignal env st d).connections d.«from» = some c' →
      c'.aesKey = none) :=
  ⟨fun env evs st p c h => foldl_handleSignal_key_stable env evs st p c h,
   fun env st d c' hpub hnew h =>
     handleSignal_new_no_pub_no_key env st d hpub hnew c' h⟩

/-- Witness for C10: a later event does not change an existing session's
key, and a session created by a pub-less ice event has no key. -/
theorem c10_witness :
    (∃ c', mlookup (([iceFromUnknown] : List SignalData).foldl
        (handleSignal envA) stTwoOpen).connections ("p2") = some c'
      ∧ c'.aesKey = connOpenKeyed.aesKey)
    ∧ (⟨"peer", ⟨none, none, ["cand1"]⟩, false, none⟩ : Connection).aesKey
        = none :=
  ⟨c10_session_key_fixed_at_creation.1 envA [iceFromUnknown] stTwoOpen ("p2")
     connOpenKeyed (by decide),
   c10_session_key_fixed_at_creation.2 envA stEmpty iceFromUnknown
     ⟨"peer", ⟨none, none, ["cand1"]⟩, false, none⟩ rfl rfl (by decide)⟩

/-! ### Dedup at most once per epoch (C4) -/

/-- Potential argument: each delivery can only decrease
`handledLog.count k + (1 if k unseen else 0)` — the handler fires for `k`
only once while also marking `k` seen. -/
theorem processDelivery_potential (env : Env) (st : AppState) (key : String)
    (dat : Option SignalData) (k : String) :
    (processDelivery env st key dat).handledLog.count k
        + (if k ∈ (processDelivery env st key dat).signalSeen then 0 else 1)
      ≤ st.handledLog.count k + (if k ∈ st.signalSeen then 0 else 1) := by
  rcases dat with _ | d
  · exact le_refl _
  · simp only [processDelivery]
    by_cases hcond : d.type = "" ∨ key ∈ st.signalSeen
    · simp only [if_pos hcond]
      exact le_refl _
    · simp only [if_neg hcond]
      have hkey : key ∉ st.signalSeen := fun hmem => hcond (Or.inr hmem)
      rw [(handleSignal_seen_log env _ d).1, (handleSignal_seen_log env _ d).2]
      show (st.handledLog ++ [key]).count k
          + (if k ∈ key :: st.signalSeen then 0 else 1) ≤ _
      rw [List.count_append]
      by_cases hk : k = key
      · subst hk
        simp [hkey, List.count_singleton]
      · have h1 : [key].count k = 0 := List.count_eq_zero.mpr (by simp [hk])
        simp only [h1, List.mem_cons, hk, false_or, Nat.add_zero]
        exact le_refl _

theorem runDeliveries_potential (env : Env)
    (evs : List (String × Option SignalData)) (st : AppState) (k : String) :
    (runDeliveries env st evs).handledLog.count k
        + (if k ∈ (runDeliveries env st evs).signalSeen then 0 else 1)
      ≤ st.handledLog.count k + (if k ∈ st.signalSeen then 0 else 1) := by
  induction evs generalizing st with
  | nil => exact le_refl _
  | cons ev rest ih =>
      exact le_trans (ih (processDelivery env st ev.1 ev.2))
        (processDelivery_potential env st ev.1 ev.2 k)

/-- C4: within one room-membership epoch, the signal handler is invoked at
most once per dedup key — over any delivery sequence, the number of handler
invocations recorded for a key grows by at most one; and (re-)joining a
room resets the dedup set, which scopes the guarantee to the current
epoch. -/
theorem c4_dedup_at_most_once_per_epoch :
    (∀ (env : Env) (st : AppState) (evs : List (String × Option SignalData))
      (k : String), (runDeliveries env st evs).handledLog.count k
        ≤ st.handledLog.count k + 1)
    ∧ (∀ (env : Env) (st : AppState), jsTrim env.roomInput ≠ "" →
      (joinRoom env st).signalSeen = []) := by
  constructor
  · intro env st evs k
    have h := runDeliveries_potential env evs st k
    by_cases h1 : k ∈ (runDeliveries env st evs).signalSeen <;>
      by_cases h2 : k ∈ st.signalSeen <;> simp [h1, h2] at h <;> omega
  · intro env st hne
    unfold joinRoom
    rw [if_neg hne]
    rfl

/-- Witness for C4: a duplicated key is handled once from a fresh state, and
a concrete join clears the dedup set. -/
theorem c4_witness :
    (runDeliveries envA stEmpty
        [("k1", some ⟨"offer", "me", "", "", ""⟩),
         ("k1", some ⟨"offer", "me", "", "", ""⟩)]).handledLog.count ("k1")
      ≤ stEmpty.handledLog.count ("k1") + 1
    ∧ (joinRoom ⟨"me", "mypub", 1, "r1"⟩ stEmpty).signalSeen = [] :=
  ⟨c4_dedup_at_most_once_per_epoch.1 envA stEmpty
     [("k1", some ⟨"offer", "me", "", "", ""⟩),
      ("k1", some ⟨"offer", "me", "", "", ""⟩)] ("k1"),
   c4_dedup_at_most_once_per_epoch.2 ⟨"me", "mypub", 1, "r1"⟩ stEmpty
     (by decide)⟩

/-! ### Send selection (C5) -/

/-- C5 counterexample: in a state with two open-channel sessions where only
the second has a session key, a session with an open channel and a set key
exists, yet the send is rejected to the caller — the code inspects only the
first open-channel session, so the claimed selection does not happen. -/
theorem c5_counterexample :
    (∃ kc ∈ stTwoOpen.connections, kc.2.channelOpen = true ∧ kc.2.aesKey ≠ none)
    ∧ sendMessage stTwoOpen ("hi") ivA = (stTwoOpen, .noActiveChannel) := by
  constructor
  · exact ⟨("p2", connOpenKeyed), by decide, by decide, by decide⟩
  · decide

/-- C5 amended: the send operation inspects only the first session in
insertion order whose data channel is open.  If no session has an open
channel, or that first open session has no session key, the send is
rejected to the caller with no state change (no partial send) — even when
another open session does hold a key.  Otherwise exactly one message is
encrypted and sent on that first open session. -/
theorem c5_send_uses_first_open_session (st : AppState) (input : String)
    (ivDraw : List Nat) (hne : jsTrim input ≠ "") :
    (st.connections.find? (fun kc => kc.2.channelOpen) = none →
      sendMessage st input ivDraw = (st, .noActiveChannel))
    ∧ (∀ kc, st.connections.find? (fun kc => kc.2.channelOpen) = some kc →
      kc.2.aesKey = none → sendMessage st input ivDraw = (st, .noActiveChannel))
    ∧ (∀ kc key, st.connections.find? (fun kc => kc.2.channelOpen) = some kc →
      kc.2.aesKey = some key →
      sendMessage st input ivDraw =
        ({ st with
           sent := st.sent ++ [(kc.1, encryptMessage key ivDraw (jsTrim input))],
           messages := st.messages ++ [("Вы", jsTrim input)] }, .sent kc.1)) := by
  refine ⟨?_, ?_, ?_⟩
  · intro hfind
    unfold sendMessage
    rw [if_neg hne]
    simp only [hfind]
  · intro kc hfind hkey
    unfold sendMessage
    rw [if_neg hne]
    simp only [hfind, hkey]
  · intro kc key hfind hkey
    unfold sendMessage
    rw [if_neg hne]
    simp only [hfind, hkey]

/-- Witness for the amended C5: the two-session fixture is rejected, and a
lone keyed open session sends exactly one message. -/
theorem c5_witness :
    sendMessage stTwoOpen ("hi") ivA = (stTwoOpen, .noActiveChannel)
    ∧ (sendMessage ⟨some "r", [("p2", connOpenKeyed)], [], [], "", [], [], []⟩
        ("hi") ivA).1.sent
      = [("p2", encryptMessage keyA ivA ("hi"))] := by
  constructor
  · exact (c5_send_uses_first_open_session stTwoOpen ("hi") ivA (by decide)).2.1
      ("p1", connOpenNoKey) (by decide) rfl
  · rw [(c5_send_uses_first_open_session
        ⟨some "r", [("p2", connOpenKeyed)], [], [], "", [], [], []⟩ ("hi") ivA
        (by decide)).2.2 ("p2", connOpenKeyed) keyA (by decide) rfl]
    rfl

/-! ### Message codec round trip (C7, C8) -/

theorem bytesToStr_strToBytes (s : String) : bytesToStr (strToBytes s) = some s := by
  have hv : ((s.data.map Char.toNat).all (fun b => decide (Nat.isValidChar b))) = true := by
    rw [List.all_eq_true]
    intro b hb
    rcases List.mem_map.mp hb with ⟨c, _, rfl⟩
    simpa using c.valid
  unfold bytesToStr strToBytes
  rw [if_pos hv, List.map_map]
  have hmap : s.data.map (Char.ofNat ∘ Char.toNat) = s.data := by
    rw [show Char.ofNat ∘ Char.toNat = id from funext fun c => Char.ofNat_toNat c,
      List.map_id]
  rw [hmap]

/-- C7: decrypting the encryption of a plaintext under the same key returns
exactly that plaintext; decrypting it under any different key fails
authentication (and so never returns the plaintext). -/
theorem c7_encrypt_decrypt (k k' : AesKey) (iv : List Nat) (t : String)
    (hiv : ∀ b ∈ iv, b < 256) :
    decryptMessage k (encryptMessage k iv t) = some t
    ∧ (k' ≠ k → decryptMessage k' (encryptMessage k iv t) = none) := by
  constructor
  · unfold decryptMessage encryptMessage
    simp only [fromB64_toB64 iv hiv]
    unfold aesGcmDecrypt aesGcmEncrypt
    simp [bytesToStr_strToBytes]
  · intro hne
    unfold decryptMessage encryptMessage
    simp only [fromB64_toB64 iv hiv]
    unfold aesGcmDecrypt aesGcmEncrypt
    simp [Ne.symm hne]

/-- Witness for C7 at a concrete key pair, nonce and plaintext. -/
theorem c7_witness :
    decryptMessage keyA (encryptMessage keyA ivA ("hi")) = some ("hi")
    ∧ decryptMessage keyB (encryptMessage keyA ivA ("hi")) = none :=
  ⟨(c7_encrypt_decrypt keyA keyB ivA ("hi") (by decide)).1,
   (c7_encrypt_decrypt keyA keyB ivA ("hi") (by decide)).2 (by decide)⟩

/-- C8: every encryption call uses the fresh 12-byte (96-bit) random draw of
that call verbatim as its nonce, so two encryptions of the same plaintext
under the same key whose independent draws differ have different nonces and
different payloads; the nonce can repeat only if the randomness itself
collides. -/
theorem c8_fresh_nonce (k : AesKey) (t : String) (iv1 iv2 : List Nat)
    (_h1 : iv1.length = 12) (_h2 : iv2.length = 12)
    (hb1 : ∀ b ∈ iv1, b < 256) (hb2 : ∀ b ∈ iv2, b < 256) (hne : iv1 ≠ iv2) :
    (encryptMessage k iv1 t).iv = toB64 iv1
    ∧ (encryptMessage k iv1 t).iv ≠ (encryptMessage k iv2 t).iv
    ∧ encryptMessage k iv1 t ≠ encryptMessage k iv2 t := by
  refine ⟨rfl, ?_, ?_⟩
  · intro h
    exact hne (toB64_injOn iv1 iv2 hb1 hb2 h)
  · intro h
    have hiv : (encryptMessage k iv1 t).iv = (encryptMessage k iv2 t).iv := by
      rw [h]
    exact hne (toB64_injOn iv1 iv2 hb1 hb2 hiv)

/-- Witness for C8 on two concrete distinct 12-byte draws. -/
theorem c8_witness :
    (encryptMessage keyA ivA ("msg")).iv = toB64 ivA
    ∧ (encryptMessage keyA ivA ("msg")).iv ≠ (encryptMessage keyA ivB ("msg")).iv
    ∧ encryptMessage keyA ivA ("msg") ≠ encryptMessage keyA ivB ("msg") :=
  c8_fresh_nonce keyA ("msg") ivA ivB rfl rfl (by decide) (by decide) (by decide)

/-! ### Static-static agreement symmetry (C1) -/

/-- C1: for all keypairs A and B over the shared generator and any salt,
session-key derivation is symmetric: the whole derivation pipeline applied
to A's private scalar and B's public point yields the same symmetric key as
applied to B's private scalar and A's public point, because
`a • (b • G) = b • (a • G)` in the commutative point group. -/
theorem c1_derive_symmetric {G : Type} [AddCommMonoid G]
    (encodePt : G → List Nat) (gen : G) (privA privB : Nat) (salt : String) :
    deriveAesKeyModel encodePt privA (getPublicKeyModel gen privB) salt
      = deriveAesKeyModel encodePt privB (getPublicKeyModel gen privA) salt := by
  unfold deriveAesKeyModel getSharedSecretModel getPublicKeyModel
  rw [smul_smul, smul_smul, Nat.mul_comm]

/-- Witness for C1 at a concrete commutative monoid instance and scalars. -/
theorem c1_witness :
    deriveAesKeyModel (fun n : Nat => [n % 256]) 5 (getPublicKeyModel 3 7)
        ("room1")
      = deriveAesKeyModel (fun n : Nat => [n % 256]) 7 (getPublicKeyModel 3 5)
        ("room1") :=
  c1_derive_symmetric (fun n : Nat => [n % 256]) 3 5 7 ("room1")

end MaxkorotZI
